import Mathlib

/-!
Shallow embedding of the welle-cli channel scanner
(`src/welle-cli/channelscanner.h` and its implementation file).

Modelling conventions:
* Labels (DAB ensemble / service labels) are byte lists (`List Nat`), since the
  C++ trimming code works on `char` values through C `isspace`.
* The asynchronous decoding engine is an external collaborator.  The
  notifications it delivers while an engine instance is live are modelled as an
  explicit list of `Notification` values, applied to the shared `ScanState` in
  delivery order (the mutex serialises them in the C++ code).  Which
  notifications make it into each list abstracts the real-time deadlines: a
  phase's list is exactly the notifications delivered before that phase's wait
  concluded (predicate satisfied or deadline reached).
* Engine queries (`getServiceList`, `getComponents`, `getSubchannel`) are
  modelled by the per-channel environment: each engine service carries the
  subchannels obtained by looking up each of its components, in engine order.
* `float` SNR values are only stored and copied, never computed with, so they
  are modelled as `Int`.
-/

namespace WelleScan

/-- C-locale `isspace` on a byte: 0x09..0x0D and 0x20. -/
def isspaceByte (c : Nat) : Bool := (9 ≤ c && c ≤ 13) || c == 32

/-- The label trimming in `ChannelScanner::run`:
`label.erase(find_if(label.rbegin(), label.rend(), [](int c){ return !isspace(c); }).base(), label.end())`,
i.e. remove the maximal trailing run of `isspace` bytes. -/
def trimTrailing (l : List Nat) : List Nat := (l.reverse.dropWhile isspaceByte).reverse

/-- A subchannel as returned by `rx.getSubchannel(component)`: its id
(`subChId`, sentinel value -1 when invalid) and its `bitrate()`. -/
structure Subchannel where
  subChId : Int
  bitrate : Int
deriving DecidableEq

/-- One entry of `rx.getServiceList()`, with the subchannel of each of the
service's components (`rx.getSubchannel(sc)` for `sc` in `rx.getComponents(s)`),
in the order the engine returns the components. -/
structure EngineService where
  serviceId : Nat
  serviceLabel : List Nat
  subchannels : List Subchannel
deriving DecidableEq

/-- The bitrate loop of `ChannelScanner::run`: starting from 0, take the
bitrate of the first subchannel whose `subChId` is not -1 and stop. -/
def bitrateFromSubchannels : List Subchannel → Int
  | [] => 0
  | sc :: rest => if sc.subChId != -1 then sc.bitrate else bitrateFromSubchannels rest

/-- The shared per-channel-attempt state of `ChannelScanner`
(fields of the class guarded by `mtx`). -/
structure ScanState where
  signal_present : Bool
  synced : Bool
  current_snr : Int
  current_eid : Nat
  current_label : List Nat
  detected_sids : List Nat
deriving DecidableEq

/-- The member initialisers of `ChannelScanner`: everything false/0/empty. -/
def initialScanState : ScanState :=
  { signal_present := false, synced := false, current_snr := 0,
    current_eid := 0, current_label := [], detected_sids := [] }

/-- A notification delivered by the decoding engine to the
`RadioControllerInterface` callbacks that `ChannelScanner` implements.
`other` stands for all the callbacks the scanner overrides as no-ops. -/
inductive Notification where
  | snr (v : Int)
  | syncChange (isSync : Nat)
  | signalPresence (b : Bool)
  | serviceDetected (sId : Nat)
  | newEnsemble (eId : Nat)
  | setEnsembleLabel (label : List Nat)
  | other
deriving DecidableEq

/-- Effect of one callback on the shared state (each callback takes the lock
and mutates exactly one field). `onSyncChange` stores `isSync != 0`;
`onServiceDetected` inserts into the set `detected_sids`. -/
def applyNotification (s : ScanState) : Notification → ScanState
  | .snr v => { s with current_snr := v }
  | .syncChange c => { s with synced := c != 0 }
  | .signalPresence b => { s with signal_present := b }
  | .serviceDetected sId =>
      { s with detected_sids :=
          if s.detected_sids.contains sId then s.detected_sids else sId :: s.detected_sids }
  | .newEnsemble e => { s with current_eid := e }
  | .setEnsembleLabel lab => { s with current_label := lab }
  | .other => s

/-- Apply a list of notifications in delivery order. -/
def applyAll (s : ScanState) (l : List Notification) : ScanState :=
  l.foldl applyNotification s

/-- The "Reset per-channel state" block at the top of the scan loop: every
field of the shared state is assigned its default. -/
def resetScanState (_s : ScanState) : ScanState :=
  { signal_present := false, synced := false, current_snr := 0,
    current_eid := 0, current_label := [], detected_sids := [] }

/-- `ChannelScanner::ServiceInfo`. -/
structure ServiceInfo where
  sid : Nat
  label : List Nat
  bitrate_kbps : Int
deriving DecidableEq

/-- `ChannelScanner::ScanResult`. -/
structure ScanResult where
  channel : String
  frequency_hz : Nat
  ensemble_label : List Nat
  ensemble_id : Nat
  snr : Int
  services : List ServiceInfo
deriving DecidableEq

/-- The per-channel environment: the channel's catalog entry (name and
frequency) together with the external engine's behaviour on this channel.
`notifs1` are the notifications delivered during the phase-1 (presence)
engine instance before its wait concluded; `notifs2a` those delivered by the
phase-2 instance before the sync wait concluded; `notifs2b` those delivered
between the sync wait and the collect-time lock acquisition.  `services` is
the engine's `getServiceList()` answer with resolved subchannels. -/
structure ChannelEnv where
  name : String
  freq : Nat
  notifs1 : List Notification
  notifs2a : List Notification
  notifs2b : List Notification
  services : List EngineService
deriving DecidableEq

/-- Observable actions of the scan loop, in program order. -/
inductive Event where
  | reset
  | startEngine (phase : Nat)
  | stopEngine (phase : Nat)
  | diag (msg : String)
  | append (r : ScanResult)
deriving DecidableEq

/-- Construction of one `ServiceInfo` in the collect loop: id, trimmed label,
bitrate from the first valid subchannel. -/
def mkServiceInfo (svc : EngineService) : ServiceInfo :=
  { sid := svc.serviceId, label := trimTrailing svc.serviceLabel,
    bitrate_kbps := bitrateFromSubchannels svc.subchannels }

/-- Assembly of a `ScanResult` at collect time from the channel entry, the
shared state read under the lock, and the engine's service list. -/
def mkScanResult (env : ChannelEnv) (s : ScanState) : ScanResult :=
  { channel := env.name, frequency_hz := env.freq,
    ensemble_label := trimTrailing s.current_label,
    ensemble_id := s.current_eid, snr := s.current_snr,
    services := env.services.map mkServiceInfo }

/-- Shared state at the end of the phase-1 presence wait: the per-channel
reset followed by the notifications the phase-1 engine instance delivered
before the wait concluded.  `has_signal` in the source is this state's
`signal_present`. -/
def phase1State (s : ScanState) (env : ChannelEnv) : ScanState :=
  applyAll (resetScanState s) env.notifs1

/-- Shared state at the end of the phase-2 sync wait: `synced` is cleared
before restarting in full-receive mode, then the phase-2 notifications up to
the end of the wait are applied.  `got_sync` in the source is this state's
`synced`. -/
def phase2State (s : ScanState) (env : ChannelEnv) : ScanState :=
  applyAll { phase1State s env with synced := false } env.notifs2a

/-- Shared state at collect time (under the lock in which the result fields
are read), after the notifications delivered during the FIB-accumulation
dwell. -/
def collectState (s : ScanState) (env : ChannelEnv) : ScanState :=
  applyAll (phase2State s env) env.notifs2b

/-- One iteration of the scan loop of `ChannelScanner::run` for one channel:
reset the shared state; phase 1 (quick detection, wait for signal presence,
stop); if no signal, diagnostic and move on; phase 2 (clear `synced`, full
receive, wait for sync); if no sync, diagnostic, stop and move on; otherwise
collect the result, append it and stop.  Returns the shared state after the
channel, the optional `ScanResult`, and the event trace. -/
def scanChannel (s : ScanState) (env : ChannelEnv) :
    ScanState × Option ScanResult × List Event :=
  if !(phase1State s env).signal_present then
    (phase1State s env, none,
     [.reset, .startEngine 1, .stopEngine 1, .diag "no signal"])
  else if !(phase2State s env).synced then
    (phase2State s env, none,
     [.reset, .startEngine 1, .stopEngine 1, .startEngine 2,
      .diag "signal but no sync", .stopEngine 2])
  else
    (collectState s env, some (mkScanResult env (collectState s env)),
     [.reset, .startEngine 1, .stopEngine 1, .startEngine 2,
      .diag "found", .append (mkScanResult env (collectState s env)), .stopEngine 2])

/-- The whole scan loop over the channel catalog, threading the shared state
(one `ChannelScanner` object is reused across channels), accumulating the
`results` vector and the event trace. -/
def runScanner (s : ScanState) : List ChannelEnv → ScanState × List ScanResult × List Event
  | [] => (s, [], [])
  | env :: rest =>
    let step := scanChannel s env
    let tail := runScanner step.1 rest
    (tail.1, step.2.1.toList ++ tail.2.1, step.2.2 ++ tail.2.2)

/-! ## JSON report (`hex_str` and `ChannelScanner::printJsonReport`) -/

/-- Uppercase hexadecimal digit character for a value below 16
(ostream `hex << uppercase` digit alphabet). -/
def hexDigitChar (n : Nat) : Char :=
  if n < 10 then Char.ofNat (48 + n) else Char.ofNat (55 + n)

/-- Fuel-driven digit extraction (structural recursion so that concrete
values reduce): with enough fuel, the uppercase hexadecimal digits of `n`,
most significant first. -/
def toHexDigitsAux : Nat → Nat → List Char
  | 0, _ => []
  | fuel + 1, n =>
    if n < 16 then [hexDigitChar n]
    else toHexDigitsAux fuel (n / 16) ++ [hexDigitChar (n % 16)]

/-- The uppercase hexadecimal digit sequence of a number, most significant
digit first (what `oss << hex << uppercase << value` emits before padding). -/
def toHexDigits (n : Nat) : List Char := toHexDigitsAux (n + 1) n

/-- Character list produced by `hex_str`: `"0x"`, then `setw(width)` /
`setfill('0')` left padding, then the digits (no truncation when the digits
exceed the field width). -/
def hexChars (value width : Nat) : List Char :=
  let ds := toHexDigits value
  '0' :: 'x' :: (List.replicate (width - ds.length) '0' ++ ds)

/-- `hex_str(value, width)` from the implementation file:
`oss << "0x" << hex << uppercase << setw(width) << setfill('0') << value`.
Both call sites use the default width 4. -/
def hex_str (value width : Nat) : String := String.mk (hexChars value width)

/-- One entry of the report's per-service array. -/
structure ServiceEntry where
  sid : String
  label : List Nat
  bitrate_kbps : Int
deriving DecidableEq

/-- One entry of the report's `results` array. -/
structure ReportEntry where
  channel : String
  frequency_hz : Nat
  ensemble_id : String
  ensemble_label : List Nat
  snr_db : Int
  services : List ServiceEntry
deriving DecidableEq

/-- The JSON report document (its schema; serialisation itself is the JSON
library's concern and out of scope). -/
structure Report where
  timestamp : String
  channels_scanned : Nat
  ensembles_found : Nat
  results : List ReportEntry
deriving DecidableEq

/-- One `results` entry of the report, from a `ScanResult`. -/
def reportEntryOf (r : ScanResult) : ReportEntry :=
  { channel := r.channel, frequency_hz := r.frequency_hz,
    ensemble_id := hex_str r.ensemble_id 4,
    ensemble_label := r.ensemble_label, snr_db := r.snr,
    services := r.services.map fun s =>
      { sid := hex_str s.sid 4, label := s.label, bitrate_kbps := s.bitrate_kbps } }

/-- Modelled from the spec: `NUMBEROFCHANNELS` and the `Channels` cursor come
from `various/channels.h`, which is not part of the given sources; per the
spec the catalog is an ordered sequence of channels and `NUMBEROFCHANNELS`
is its total length, independent of per-channel outcomes. -/
def NUMBEROFCHANNELS (catalog : List ChannelEnv) : Nat := catalog.length

/-- `ChannelScanner::printJsonReport`: metadata (wall-clock timestamp, total
catalog channels, number of accumulated results) plus one entry per result.
The timestamp string is an external input (system clock). -/
def printJsonReport (timestamp : String) (catalog : List ChannelEnv)
    (results : List ScanResult) : Report :=
  { timestamp := timestamp,
    channels_scanned := NUMBEROFCHANNELS catalog,
    ensembles_found := results.length,
    results := results.map reportEntryOf }

/-- A complete scan-and-report run: `scanner.run(...)` on a fresh
`ChannelScanner` followed by `scanner.printJsonReport(...)`. -/
def scanAndReport (timestamp : String) (catalog : List ChannelEnv) : Report :=
  printJsonReport timestamp catalog (runScanner initialScanState catalog).2.1

/-! ## Derived notions used to state the claims -/

/-- Phase 1 succeeded: signal presence became true within the presence wait
(the notifications delivered before the wait concluded left
`signal_present` true). -/
def presencePhaseOk (s : ScanState) (env : ChannelEnv) : Bool :=
  (phase1State s env).signal_present

/-- Phase 2 succeeded: after clearing `synced`, the notifications delivered
before the sync wait concluded left `synced` true. -/
def syncPhaseOk (s : ScanState) (env : ChannelEnv) : Bool :=
  (phase2State s env).synced

/-- Engine-lifetime checker over an event trace, given the list of currently
live engine phases: a reset requires no live engine; a stop requires the
engine to be live (so a second stop of the same instance fails) and retires
it; at the end of the trace no engine is live. -/
def engineBalanced : List Event → List Nat → Bool
  | [], live => live.isEmpty
  | Event.reset :: rest, live => live.isEmpty && engineBalanced rest []
  | Event.startEngine p :: rest, live => engineBalanced rest (p :: live)
  | Event.stopEngine p :: rest, live => live.contains p && engineBalanced rest (live.erase p)
  | Event.diag _ :: rest, live => engineBalanced rest live
  | Event.append _ :: rest, live => engineBalanced rest live

/-- Spec-side description of the bitrate rule: the bitrate of the first
subchannel whose id is valid (not the sentinel -1), else 0. -/
def firstValidSubchannelBitrate (subs : List Subchannel) : Int :=
  match subs.find? (fun sc => sc.subChId != -1) with
  | some sc => sc.bitrate
  | none => 0

/-- Spec-side character class for claim C6: whitespace or control characters
(C0 controls 0x00..0x1F, DEL 0x7F, and whitespace). -/
def isWhitespaceOrControl (c : Nat) : Bool := isspaceByte c || c < 32 || c == 127

/-- Spec-side normalization for claim C6: remove the maximal trailing run of
whitespace-or-control bytes. -/
def trimTrailingSpecC6 (l : List Nat) : List Nat :=
  (l.reverse.dropWhile isWhitespaceOrControl).reverse

/-- Is a notification a `serviceDetected` one? -/
def isServiceDetectedNotif : Notification → Bool
  | .serviceDetected _ => true
  | _ => false

/-- Remove the `serviceDetected` notifications from a delivery list. -/
def scrubSids (l : List Notification) : List Notification :=
  l.filter (fun n => !isServiceDetectedNotif n)

/-- A channel environment with its `serviceDetected` notifications removed:
everything the scan can observe apart from the detected-id set. -/
structure EnvSansSids where
  name : String
  freq : Nat
  notifs1 : List Notification
  notifs2a : List Notification
  notifs2b : List Notification
  services : List EngineService
deriving DecidableEq

/-- Everything about a channel environment except which `serviceDetected`
notifications are delivered. -/
def envObservable (e : ChannelEnv) : EnvSansSids :=
  ⟨e.name, e.freq, scrubSids e.notifs1, scrubSids e.notifs2a, scrubSids e.notifs2b, e.services⟩

/-- The shared state with the detected-service-id set cleared (the projection
that the result assembly can observe, see claim C10). -/
def eraseSids (s : ScanState) : ScanState := { s with detected_sids := [] }

/-- Numeric value of an uppercase hexadecimal digit character (inverse of
`hexDigitChar`), used to state that `hex_str` does not truncate. -/
def hexCharVal (c : Char) : Nat :=
  if 65 ≤ c.toNat then c.toNat - 55 else c.toNat - 48

/-- Read back a most-significant-first uppercase hexadecimal digit string. -/
def fromHexDigits (l : List Char) : Nat :=
  l.foldl (fun acc c => 16 * acc + hexCharVal c) 0

/-- The uppercase hexadecimal digit alphabet. -/
def hexUpperChars : List Char :=
  ['0', '1', '2', '3', '4', '5', '6', '7', '8', '9', 'A', 'B', 'C', 'D', 'E', 'F']

/-! ## Helper lemmas -/

theorem trimTrailing_def (l : List Nat) : trimTrailing l = List.rdropWhile isspaceByte l := rfl

theorem trimTrailing_split (l : List Nat) :
    trimTrailing l ++ (l.reverse.takeWhile isspaceByte).reverse = l := by
  unfold trimTrailing
  rw [← List.reverse_append, List.takeWhile_append_dropWhile, List.reverse_reverse]

theorem bitrateFromSubchannels_eq_firstValid (subs : List Subchannel) :
    bitrateFromSubchannels subs = firstValidSubchannelBitrate subs := by
  induction subs with
  | nil => rfl
  | cons sc rest ih =>
    cases hb : sc.subChId != -1 with
    | true =>
      simp [bitrateFromSubchannels, firstValidSubchannelBitrate, List.find?_cons, hb]
    | false =>
      simp only [bitrateFromSubchannels, firstValidSubchannelBitrate, List.find?_cons, hb,
        if_neg, Bool.false_eq_true, not_false_eq_true, if_false] at ih ⊢
      exact ih

theorem scanChannel_state_irrel (s t : ScanState) (env : ChannelEnv) :
    scanChannel s env = scanChannel t env := rfl

theorem scanChannel_trace_reset_count (s : ScanState) (env : ChannelEnv) :
    (scanChannel s env).2.2.count Event.reset = 1 := by
  unfold scanChannel
  by_cases h1 : (phase1State s env).signal_present
  · by_cases h2 : (phase2State s env).synced
    · simp only [h1, h2] ; rfl
    · simp only [h1, h2] ; rfl
  · simp only [h1] ; rfl

theorem runScanner_trace_reset_count (s : ScanState) (envs : List ChannelEnv) :
    (runScanner s envs).2.2.count Event.reset = envs.length := by
  induction envs generalizing s with
  | nil => rfl
  | cons env rest ih =>
    simp only [runScanner, List.count_append, scanChannel_trace_reset_count, ih,
      List.length_cons]
    omega

theorem runScanner_results_le (s : ScanState) (envs : List ChannelEnv) :
    (runScanner s envs).2.1.length ≤ envs.length := by
  induction envs generalizing s with
  | nil => simp [runScanner]
  | cons env rest ih =>
    simp only [runScanner, List.length_append, List.length_cons]
    have h1 : (scanChannel s env).2.1.toList.length ≤ 1 := by
      cases (scanChannel s env).2.1 <;> simp
    have h2 := ih (scanChannel s env).1
    omega

theorem scanChannel_trace_balanced (s : ScanState) (env : ChannelEnv)
    (rest : List Event) :
    engineBalanced ((scanChannel s env).2.2 ++ rest) [] = engineBalanced rest [] := by
  unfold scanChannel
  by_cases h1 : (phase1State s env).signal_present
  · by_cases h2 : (phase2State s env).synced
    · simp only [h1, h2] ; rfl
    · simp only [h1, h2] ; rfl
  · simp only [h1] ; rfl

theorem hexCharVal_hexDigitChar (m : Nat) (h : m < 16) :
    hexCharVal (hexDigitChar m) = m := by
  interval_cases m <;> rfl

theorem hexDigitChar_mem_hexUpperChars (m : Nat) (h : m < 16) :
    hexDigitChar m ∈ hexUpperChars := by
  interval_cases m <;> decide

theorem fromHexDigits_append_singleton (l : List Char) (c : Char) :
    fromHexDigits (l ++ [c]) = 16 * fromHexDigits l + hexCharVal c := by
  unfold fromHexDigits
  rw [List.foldl_append]
  rfl

theorem fromHexDigits_toHexDigitsAux (fuel : Nat) :
    ∀ n, n < fuel → fromHexDigits (toHexDigitsAux fuel n) = n := by
  induction fuel with
  | zero => intro n h; exact absurd h (Nat.not_lt_zero n)
  | succ fuel ih =>
    intro n h
    unfold toHexDigitsAux
    by_cases h16 : n < 16
    · rw [if_pos h16]
      show 16 * 0 + hexCharVal (hexDigitChar n) = n
      rw [hexCharVal_hexDigitChar n h16]
      omega
    · rw [if_neg h16, fromHexDigits_append_singleton]
      have hd : n / 16 < n := Nat.div_lt_self (by omega) (by omega)
      rw [ih (n / 16) (by omega),
        hexCharVal_hexDigitChar (n % 16) (Nat.mod_lt _ (by omega))]
      omega

theorem fromHexDigits_toHexDigits (n : Nat) :
    fromHexDigits (toHexDigits n) = n :=
  fromHexDigits_toHexDigitsAux (n + 1) n (Nat.lt_succ_self n)

theorem toHexDigitsAux_subset (fuel : Nat) :
    ∀ n, n < fuel → ∀ c ∈ toHexDigitsAux fuel n, c ∈ hexUpperChars := by
  induction fuel with
  | zero => intro n h; exact absurd h (Nat.not_lt_zero n)
  | succ fuel ih =>
    intro n h c hc
    unfold toHexDigitsAux at hc
    by_cases h16 : n < 16
    · rw [if_pos h16] at hc
      simp only [List.mem_singleton] at hc
      subst hc
      exact hexDigitChar_mem_hexUpperChars n h16
    · rw [if_neg h16] at hc
      have hd : n / 16 < n := Nat.div_lt_self (by omega) (by omega)
      rcases List.mem_append.mp hc with h1 | h1
      · exact ih (n / 16) (by omega) c h1
      · simp only [List.mem_singleton] at h1
        subst h1
        exact hexDigitChar_mem_hexUpperChars (n % 16) (Nat.mod_lt _ (by omega))

theorem toHexDigits_subset (n : Nat) : ∀ c ∈ toHexDigits n, c ∈ hexUpperChars :=
  toHexDigitsAux_subset (n + 1) n (Nat.lt_succ_self n)

theorem toHexDigitsAux_length_ge (fuel : Nat) :
    ∀ n k, n < fuel → 16 ^ k ≤ n → k + 1 ≤ (toHexDigitsAux fuel n).length := by
  induction fuel with
  | zero => intro n k h _; exact absurd h (Nat.not_lt_zero n)
  | succ fuel ih =>
    intro n k h hk
    unfold toHexDigitsAux
    by_cases h16 : n < 16
    · rw [if_pos h16]
      cases k with
      | zero => simp
      | succ k =>
        exfalso
        have h1 : (16 : Nat) ≤ 16 ^ (k + 1) := by
          calc (16 : Nat) = 16 ^ 1 := (pow_one 16).symm
            _ ≤ 16 ^ (k + 1) := Nat.pow_le_pow_right (by omega) (by omega)
        omega
    · rw [if_neg h16, List.length_append, List.length_singleton]
      cases k with
      | zero => omega
      | succ k =>
        have hdiv : 16 ^ k ≤ n / 16 := by
          rw [Nat.le_div_iff_mul_le (by omega)]
          calc 16 ^ k * 16 = 16 ^ (k + 1) := by ring
            _ ≤ n := hk
        have hd : n / 16 < n := Nat.div_lt_self (by omega) (by omega)
        have := ih (n / 16) k (by omega) hdiv
        omega

theorem toHexDigits_length_ge (n k : Nat) (h : 16 ^ k ≤ n) :
    k + 1 ≤ (toHexDigits n).length :=
  toHexDigitsAux_length_ge (n + 1) n k (Nat.lt_succ_self n) h

theorem fromHexDigits_replicate_zero (k : Nat) (l : List Char) :
    fromHexDigits (List.replicate k '0' ++ l) = fromHexDigits l := by
  induction k with
  | zero => rfl
  | succ k ih =>
    rw [List.replicate_succ, List.cons_append]
    show fromHexDigits (List.replicate k '0' ++ l) = fromHexDigits l
    exact ih

theorem eraseSids_applyAll (s : ScanState) (l : List Notification) :
    eraseSids (applyAll s l) = applyAll (eraseSids s) (scrubSids l) := by
  induction l generalizing s with
  | nil => rfl
  | cons n l ih =>
    have step : applyAll s (n :: l) = applyAll (applyNotification s n) l := rfl
    rw [step, ih]
    cases n <;> rfl

theorem scanChannel_result_observable (s t : ScanState) (e1 e2 : ChannelEnv)
    (h : envObservable e1 = envObservable e2) :
    (scanChannel s e1).2.1 = (scanChannel t e2).2.1 := by
  simp only [envObservable, EnvSansSids.mk.injEq] at h
  obtain ⟨hn, hf, h1, h2a, h2b, hs⟩ := h
  have hreset : eraseSids (resetScanState s) = eraseSids (resetScanState t) := rfl
  have E1 : eraseSids (phase1State s e1) = eraseSids (phase1State t e2) := by
    unfold phase1State
    rw [eraseSids_applyAll, eraseSids_applyAll, h1, hreset]
  have hsig : (phase1State s e1).signal_present = (phase1State t e2).signal_present := by
    have hx := congrArg ScanState.signal_present E1
    exact hx
  have E1s : eraseSids { phase1State s e1 with synced := false }
      = eraseSids { phase1State t e2 with synced := false } :=
    congrArg (fun u => { u with synced := false }) E1
  have E2 : eraseSids (phase2State s e1) = eraseSids (phase2State t e2) := by
    unfold phase2State
    rw [eraseSids_applyAll, eraseSids_applyAll, h2a, E1s]
  have hsyn : (phase2State s e1).synced = (phase2State t e2).synced := by
    have hx := congrArg ScanState.synced E2
    exact hx
  have E3 : eraseSids (collectState s e1) = eraseSids (collectState t e2) := by
    unfold collectState
    rw [eraseSids_applyAll, eraseSids_applyAll, h2b, E2]
  have hres : mkScanResult e1 (collectState s e1) = mkScanResult e2 (collectState t e2) := by
    have l1 : mkScanResult e1 (collectState s e1)
        = mkScanResult e1 (eraseSids (collectState s e1)) := rfl
    have l2 : mkScanResult e2 (collectState t e2)
        = mkScanResult e2 (eraseSids (collectState t e2)) := rfl
    rw [l1, l2, E3]
    simp [mkScanResult, hn, hf, hs]
  unfold scanChannel
  rw [hsig, hsyn]
  by_cases hp : (phase1State t e2).signal_present
  · by_cases hq : (phase2State t e2).synced
    · simp [hp, hq, hres]
    · simp [hp, hq]
  · simp [hp]

theorem runScanner_results_observable (cat1 : List ChannelEnv) :
    ∀ cat2 : List ChannelEnv, cat1.map envObservable = cat2.map envObservable →
      ∀ s t : ScanState, (runScanner s cat1).2.1 = (runScanner t cat2).2.1 := by
  induction cat1 with
  | nil =>
    intro cat2 h s t
    cases cat2 with
    | nil => rfl
    | cons e r => simp at h
  | cons e1 r1 ih =>
    intro cat2 h s t
    cases cat2 with
    | nil => simp at h
    | cons e2 r2 =>
      simp only [List.map_cons, List.cons.injEq] at h
      obtain ⟨he, hr⟩ := h
      show (scanChannel s e1).2.1.toList ++ (runScanner (scanChannel s e1).1 r1).2.1
          = (scanChannel t e2).2.1.toList ++ (runScanner (scanChannel t e2).1 r2).2.1
      rw [scanChannel_result_observable s t e1 e2 he,
        ih r2 hr (scanChannel s e1).1 (scanChannel t e2).1]

/-! ## Claims -/

/-- Claim C5: for every service included in a `ScanResult`, the reported
bitrate equals the bitrate of the first of the service's components, in
engine order, whose subchannel has a valid non-sentinel id (`subChId ≠ -1`);
if none is valid the bitrate is 0.  Stated as: the bitrate loop computes the
first-valid-subchannel rule, and every service of an assembled result uses
it. -/
theorem C5_bitrate_first_valid_subchannel (subs : List Subchannel)
    (env : ChannelEnv) (s : ScanState) :
    bitrateFromSubchannels subs = firstValidSubchannelBitrate subs
    ∧ (mkScanResult env s).services = env.services.map (fun svc =>
        { sid := svc.serviceId, label := trimTrailing svc.serviceLabel,
          bitrate_kbps := firstValidSubchannelBitrate svc.subchannels }) := by
  refine ⟨bitrateFromSubchannels_eq_firstValid subs, ?_⟩
  show env.services.map mkServiceInfo = _
  refine List.map_congr_left fun svc _ => ?_
  simp [mkServiceInfo, bitrateFromSubchannels_eq_firstValid]

/-- Claim C6, counterexample: the claim says trailing whitespace *and
control* characters are removed, but the code uses C `isspace` only.  On the
label `[66, 0x01]` ("B" followed by the control byte 0x01) the code removes
nothing, while removing the maximal trailing run of whitespace-or-control
bytes would yield `[66]`. -/
theorem C6_counterexample :
    trimTrailing [66, 1] = [66, 1]
    ∧ trimTrailingSpecC6 [66, 1] = [66]
    ∧ isWhitespaceOrControl 1 = true
    ∧ isspaceByte 1 = false
    ∧ trimTrailing [66, 1] ≠ trimTrailingSpecC6 [66, 1] := by decide

/-- Claim C6, amended: the label normalization removes exactly the maximal
trailing run of whitespace characters (C `isspace`: 0x09..0x0D, 0x20) and
nothing else — the result is a prefix of the input (`take` of itself),
every removed byte is whitespace, and the result does not end in a
whitespace byte; leading and internal bytes are never removed.  Control
characters outside the `isspace` class are kept. -/
theorem C6_trim_only_trailing_whitespace (l : List Nat) :
    trimTrailing l = l.take (trimTrailing l).length
    ∧ (∀ c ∈ l.drop (trimTrailing l).length, isspaceByte c = true)
    ∧ (∀ c, (trimTrailing l).getLast? = some c → isspaceByte c = false) := by
  have hdrop : l.drop (trimTrailing l).length = (l.reverse.takeWhile isspaceByte).reverse := by
    nth_rewrite 2 [← trimTrailing_split l]
    exact List.drop_left _ _
  refine ⟨?_, ?_, ?_⟩
  · nth_rewrite 3 [← trimTrailing_split l]
    exact (List.take_left _ _).symm
  · intro c hc
    rw [hdrop] at hc
    exact List.mem_takeWhile_imp (List.mem_reverse.mp hc)
  · intro c hc
    have hne : trimTrailing l ≠ [] := by
      intro h; rw [h] at hc; simp at hc
    rw [List.getLast?_eq_getLast _ hne] at hc
    have hrne : List.rdropWhile isspaceByte l ≠ [] := trimTrailing_def l ▸ hne
    have hlast : isspaceByte ((List.rdropWhile isspaceByte l).getLast hrne) = false := by
      simpa using List.rdropWhile_last_not isspaceByte l hrne
    have hcc : c = (trimTrailing l).getLast hne := (Option.some.inj hc).symm
    subst hcc
    exact hlast

/-- Witness for claim C6's amended theorem at the concrete label
`[65, 32]` ("A "): its trimmed form ends in the non-whitespace byte 65, and
the removed byte 32 is whitespace. -/
theorem C6_trim_only_trailing_whitespace_witness :
    ((trimTrailing [65, 32]).getLast? = some 65 ∧ isspaceByte 65 = false)
    ∧ ((32 : Nat) ∈ List.drop (trimTrailing [65, 32]).length [65, 32]
        ∧ isspaceByte 32 = true) :=
  ⟨⟨by decide, (C6_trim_only_trailing_whitespace [65, 32]).2.2 65 (by decide)⟩,
   ⟨by decide, (C6_trim_only_trailing_whitespace [65, 32]).2.1 32 (by decide)⟩⟩

/-- Claim C1: for every channel, at most one `ScanResult` is appended (the
per-channel outcome is an `Option`), and one is appended if and only if
signal presence became true within the presence wait and `synced` became
true within the per-channel sync wait; a failing channel never fails the
run — every catalog entry is still visited (one state reset per entry) and
the result count never exceeds the catalog length. -/
theorem C1_result_iff_phases (s : ScanState) (env : ChannelEnv)
    (envs : List ChannelEnv) :
    (scanChannel s env).2.1.isSome = (presencePhaseOk s env && syncPhaseOk s env)
    ∧ (runScanner s envs).2.2.count Event.reset = envs.length
    ∧ (runScanner s envs).2.1.length ≤ envs.length := by
  refine ⟨?_, runScanner_trace_reset_count s envs, runScanner_results_le s envs⟩
  unfold scanChannel presencePhaseOk syncPhaseOk
  by_cases h1 : (phase1State s env).signal_present
  · by_cases h2 : (phase2State s env).synced
    · simp [h1, h2]
    · simp [h1, h2]
  · simp [h1]

/-- Claim C2: at the instant the scanner begins phase 1 for a channel, every
shared-state field holds its reset value (false/false/0/0/empty label/empty
id set), and this is independent of whatever notifications were delivered
during any previous channel's attempt. -/
theorem C2_reset_before_phase1 (s : ScanState) (prev : List Notification)
    (env : ChannelEnv) :
    resetScanState s =
      { signal_present := false, synced := false, current_snr := 0,
        current_eid := 0, current_label := [], detected_sids := [] }
    ∧ resetScanState (applyAll s prev) = initialScanState
    ∧ phase1State (applyAll s prev) env = phase1State s env
    ∧ scanChannel (applyAll s prev) env = scanChannel s env :=
  ⟨rfl, rfl, rfl, rfl⟩

/-- Claim C3: state isolation across channels — after any channel A attempt
(whatever its notifications and outcome), channel B's attempt behaves
exactly as a B attempt on a fresh scanner, so B's `ScanResult` derives only
from B's notifications and B's collect-time engine queries: its service ids
are exactly the ids of B's engine service list and its ensemble label is the
trimmed collect-time label of B. -/
theorem C3_state_isolation (s : ScanState) (envA envB : ChannelEnv) :
    scanChannel (scanChannel s envA).1 envB = scanChannel initialScanState envB
    ∧ (runScanner s [envA, envB]).2.1
        = (scanChannel s envA).2.1.toList
          ++ (scanChannel initialScanState envB).2.1.toList
    ∧ (∀ r, (scanChannel (scanChannel s envA).1 envB).2.1 = some r →
        r.services.map ServiceInfo.sid = envB.services.map EngineService.serviceId
        ∧ r.ensemble_label
            = trimTrailing (collectState initialScanState envB).current_label) := by
  refine ⟨rfl, ?_, ?_⟩
  · simp only [runScanner]
    rw [List.append_nil, scanChannel_state_irrel (scanChannel s envA).1 initialScanState]
  · intro r hr
    rw [scanChannel_state_irrel (scanChannel s envA).1 initialScanState] at hr
    unfold scanChannel at hr
    by_cases h1 : (phase1State initialScanState envB).signal_present
    · by_cases h2 : (phase2State initialScanState envB).synced
      · simp only [h1, h2, Bool.not_true, Bool.false_eq_true, if_false,
          Option.some.injEq] at hr
        subst hr
        refine ⟨?_, rfl⟩
        simp [mkScanResult, mkServiceInfo, List.map_map, Function.comp]
      · simp [h1, h2] at hr
    · simp [h1] at hr

/-- Witness for claim C3 at a concrete pair of channels: channel A delivers
service detections and an ensemble label of its own, channel B syncs and
yields a result whose service ids are exactly B's engine ids. -/
theorem C3_state_isolation_witness :
    (scanChannel
        (scanChannel initialScanState
          ⟨"5A", 174928000, [Notification.signalPresence true],
            [Notification.syncChange 1],
            [Notification.newEnsemble 100, Notification.setEnsembleLabel [65, 65],
             Notification.serviceDetected 10],
            [⟨10, [83, 49], [⟨1, 64⟩]⟩]⟩).1
        ⟨"5B", 176640000, [Notification.signalPresence true],
          [Notification.snr 9, Notification.syncChange 1],
          [Notification.newEnsemble 200, Notification.setEnsembleLabel [66, 66, 32]],
          [⟨20, [83, 50, 32], [⟨-1, 99⟩, ⟨2, 128⟩]⟩]⟩).2.1
      = some ⟨"5B", 176640000, [66, 66], 200, 9, [⟨20, [83, 50], 128⟩]⟩
    ∧ (ScanResult.services ⟨"5B", 176640000, [66, 66], 200, 9, [⟨20, [83, 50], 128⟩]⟩).map
          ServiceInfo.sid
        = [⟨(20 : Nat), [83, 50, 32], [⟨-1, 99⟩, ⟨2, 128⟩]⟩].map EngineService.serviceId :=
  ⟨by decide,
   ((C3_state_isolation initialScanState
      ⟨"5A", 174928000, [Notification.signalPresence true],
        [Notification.syncChange 1],
        [Notification.newEnsemble 100, Notification.setEnsembleLabel [65, 65],
         Notification.serviceDetected 10],
        [⟨10, [83, 49], [⟨1, 64⟩]⟩]⟩
      ⟨"5B", 176640000, [Notification.signalPresence true],
        [Notification.snr 9, Notification.syncChange 1],
        [Notification.newEnsemble 200, Notification.setEnsembleLabel [66, 66, 32]],
        [⟨20, [83, 50, 32], [⟨-1, 99⟩, ⟨2, 128⟩]⟩]⟩).2.2
      ⟨"5B", 176640000, [66, 66], 200, 9, [⟨20, [83, 50], 128⟩]⟩ (by decide)).1⟩

/-- Claim C4: on every per-channel path each decoding-engine instance started
for the channel is stopped before the next channel's reset — the whole run
trace passes the engine-lifetime checker, which demands no live engine at
every reset and at the end and rejects stopping an instance twice — and on
the sync-timeout path the phase-2 instance (and the phase-1 instance) is
stopped exactly once. -/
theorem C4_engines_stopped (s : ScanState) (envs : List ChannelEnv)
    (env : ChannelEnv) :
    engineBalanced (runScanner s envs).2.2 [] = true
    ∧ (presencePhaseOk s env = true → syncPhaseOk s env = false →
        (scanChannel s env).2.2.count (Event.stopEngine 2) = 1
        ∧ (scanChannel s env).2.2.count (Event.stopEngine 1) = 1) := by
  constructor
  · induction envs generalizing s with
    | nil => rfl
    | cons e rest ih =>
      calc engineBalanced (runScanner s (e :: rest)).2.2 []
          = engineBalanced
              ((scanChannel s e).2.2 ++ (runScanner (scanChannel s e).1 rest).2.2) [] := rfl
        _ = engineBalanced (runScanner (scanChannel s e).1 rest).2.2 [] :=
            scanChannel_trace_balanced s e _
        _ = true := ih (scanChannel s e).1
  · intro h1 h2
    unfold presencePhaseOk at h1
    unfold syncPhaseOk at h2
    unfold scanChannel
    simp only [h1, h2]
    exact ⟨rfl, rfl⟩

/-- Witness for claim C4 at a concrete channel that has signal presence but
never syncs: the sync-timeout path stops each engine instance exactly once. -/
theorem C4_engines_stopped_witness :
    presencePhaseOk initialScanState
        ⟨"5C", 178352000, [Notification.signalPresence true], [], [], []⟩ = true
    ∧ syncPhaseOk initialScanState
        ⟨"5C", 178352000, [Notification.signalPresence true], [], [], []⟩ = false
    ∧ (scanChannel initialScanState
        ⟨"5C", 178352000, [Notification.signalPresence true], [], [], []⟩).2.2.count
          (Event.stopEngine 2) = 1 :=
  ⟨by decide, by decide,
   ((C4_engines_stopped initialScanState []
      ⟨"5C", 178352000, [Notification.signalPresence true], [], [], []⟩).2
      (by decide) (by decide)).1⟩

/-- Claim C7: label normalization is idempotent — trimming an already
trimmed label changes nothing. -/
theorem C7_trim_idempotent (l : List Nat) :
    trimTrailing (trimTrailing l) = trimTrailing l := by
  simp only [trimTrailing_def]
  exact List.rdropWhile_idempotent isspaceByte l

/-- Claim C8: for every numeric id `v`, the report's hex rendering produces
`"0x"` followed by the uppercase hexadecimal digits of `v`, left-padded with
`'0'` to at least 4 digits: the rendered character list starts with `0x`,
has total length at least 6, its digit part reads back to exactly `v`
(untruncated) and uses only uppercase hexadecimal digit characters; values
exceeding 16 bits render with more than 4 digits; 0xABCD renders as
`"0xABCD"` and 0x1 as `"0x0001"`. -/
theorem C8_hex_rendering (v : Nat) :
    (hexChars v 4).take 2 = ['0', 'x']
    ∧ hex_str v 4 = String.mk (hexChars v 4)
    ∧ 6 ≤ (hexChars v 4).length
    ∧ fromHexDigits ((hexChars v 4).drop 2) = v
    ∧ (∀ c ∈ (hexChars v 4).drop 2, c ∈ hexUpperChars)
    ∧ (2 ^ 16 ≤ v → 7 ≤ (hexChars v 4).length)
    ∧ hex_str 43981 4 = "0xABCD"
    ∧ hex_str 1 4 = "0x0001" := by
  refine ⟨rfl, rfl, ?_, ?_, ?_, ?_, by decide, by decide⟩
  · show 6 ≤ ('0' :: 'x' ::
      (List.replicate (4 - (toHexDigits v).length) '0' ++ toHexDigits v)).length
    simp only [List.length_cons, List.length_append, List.length_replicate]
    omega
  · show fromHexDigits
      (List.replicate (4 - (toHexDigits v).length) '0' ++ toHexDigits v) = v
    rw [fromHexDigits_replicate_zero, fromHexDigits_toHexDigits]
  · intro c hc
    have hc' : c ∈ List.replicate (4 - (toHexDigits v).length) '0' ++ toHexDigits v := hc
    rcases List.mem_append.mp hc' with h | h
    · have h0 := List.eq_of_mem_replicate h
      subst h0
      decide
    · exact toHexDigits_subset v c h
  · intro hv
    have h4 : (16 : Nat) ^ 4 ≤ v := by
      have he : (16 : Nat) ^ 4 = 2 ^ 16 := by norm_num
      omega
    have hd := toHexDigits_length_ge v 4 h4
    show 7 ≤ ('0' :: 'x' ::
      (List.replicate (4 - (toHexDigits v).length) '0' ++ toHexDigits v)).length
    simp only [List.length_cons, List.length_append, List.length_replicate]
    omega

/-- Witness for claim C8: the 17-bit value 0x10000 renders with 7 characters
(5 digits, untruncated), and the digit `'A'` of 0xABCD is an uppercase
hexadecimal digit character. -/
theorem C8_hex_rendering_witness :
    (2 ^ 16 ≤ 65536 ∧ 7 ≤ (hexChars 65536 4).length)
    ∧ ('A' ∈ (hexChars 43981 4).drop 2 ∧ 'A' ∈ hexUpperChars) :=
  ⟨⟨by norm_num, (C8_hex_rendering 65536).2.2.2.2.2.1 (by norm_num)⟩,
   ⟨by decide, (C8_hex_rendering 43981).2.2.2.2.1 'A' (by decide)⟩⟩

/-- Claim C9: the report's channel-count field always equals the catalog's
total length (the fixed number of catalog channels, independent of
per-channel outcomes — the run still visits every entry, one reset each),
and the ensembles-found field equals the number of accumulated
`ScanResult`s. -/
theorem C9_report_metadata (timestamp : String) (catalog : List ChannelEnv) :
    (scanAndReport timestamp catalog).channels_scanned = catalog.length
    ∧ (scanAndReport timestamp catalog).ensembles_found
        = (runScanner initialScanState catalog).2.1.length
    ∧ (runScanner initialScanState catalog).2.1.length ≤ catalog.length
    ∧ (runScanner initialScanState catalog).2.2.count Event.reset = catalog.length :=
  ⟨rfl, rfl, runScanner_results_le _ _, runScanner_trace_reset_count _ _⟩

/-- Claim C10: the detected-service-id set populated by `onServiceDetected`
is never read when assembling a `ScanResult` or the report: two runs whose
catalogs differ only in which `serviceDetected` notifications are delivered
(same channels, frequencies, other notifications and engine query answers,
and the same report timestamp) produce identical result sequences and
identical reports. -/
theorem C10_detected_sids_never_read (cat1 cat2 : List ChannelEnv)
    (timestamp : String)
    (h : cat1.map envObservable = cat2.map envObservable) :
    (runScanner initialScanState cat1).2.1 = (runScanner initialScanState cat2).2.1
    ∧ scanAndReport timestamp cat1 = scanAndReport timestamp cat2 := by
  have hres := runScanner_results_observable cat1 cat2 h initialScanState initialScanState
  refine ⟨hres, ?_⟩
  unfold scanAndReport printJsonReport NUMBEROFCHANNELS
  rw [hres]
  have hlen : cat1.length = cat2.length := by
    have hml := congrArg List.length h
    simpa using hml
  rw [hlen]

/-- Witness for claim C10 at two concrete one-channel catalogs that differ
only in `serviceDetected` notifications (none versus three, interleaved into
both phases): the result sequences coincide. -/
theorem C10_detected_sids_never_read_witness :
    ([⟨"5A", 174928000, [Notification.signalPresence true],
        [Notification.syncChange 1], [Notification.setEnsembleLabel [68]],
        [⟨7, [81], [⟨3, 96⟩]⟩]⟩] : List ChannelEnv).map envObservable
      = ([⟨"5A", 174928000,
            [Notification.serviceDetected 42, Notification.signalPresence true],
            [Notification.syncChange 1],
            [Notification.serviceDetected 99, Notification.setEnsembleLabel [68],
             Notification.serviceDetected 5],
            [⟨7, [81], [⟨3, 96⟩]⟩]⟩] : List ChannelEnv).map envObservable
    ∧ (runScanner initialScanState
        [⟨"5A", 174928000, [Notification.signalPresence true],
          [Notification.syncChange 1], [Notification.setEnsembleLabel [68]],
          [⟨7, [81], [⟨3, 96⟩]⟩]⟩]).2.1
      = (runScanner initialScanState
          [⟨"5A", 174928000,
             [Notification.serviceDetected 42, Notification.signalPresence true],
             [Notification.syncChange 1],
             [Notification.serviceDetected 99, Notification.setEnsembleLabel [68],
              Notification.serviceDetected 5],
             [⟨7, [81], [⟨3, 96⟩]⟩]⟩]).2.1 :=
  ⟨by decide,
   (C10_detected_sids_never_read
      [⟨"5A", 174928000, [Notification.signalPresence true],
        [Notification.syncChange 1], [Notification.setEnsembleLabel [68]],
        [⟨7, [81], [⟨3, 96⟩]⟩]⟩]
      [⟨"5A", 174928000,
         [Notification.serviceDetected 42, Notification.signalPresence true],
         [Notification.syncChange 1],
         [Notification.serviceDetected 99, Notification.setEnsembleLabel [68],
          Notification.serviceDetected 5],
         [⟨7, [81], [⟨3, 96⟩]⟩]⟩]
      "2024-01-01T00:00:00Z" (by decide)).1⟩

end WelleScan
